import Mathlib

/-!
A verification development for the RinKokonoe coupon pipeline
(`src/models.rs`, `src/db.rs`, `src/validator.rs`, `src/scheduler.rs`).

Shallow embedding conventions:
* Timestamps (`chrono::DateTime<Utc>`) are modelled as `Nat` instants
  (`Time`); `Utc::now()` becomes an explicit `now : Time` parameter.
  `db.rs` compares RFC3339 strings lexicographically, which for
  uniform-offset RFC3339 agrees with chronological order, so `<` on
  `Time` is faithful.
* Every fallible I/O action (sqlx call, HTTP fetch, Discord delivery)
  is embedded as a function returning `Except`; transient I/O failure
  is injected through explicit boolean oracles so that both the
  success and the failure path of the Rust `?` / `match` handling are
  represented.
* `f64` (the unused-by-control-flow `discount_percentage` payload) is
  modelled as `Rat`.
-/

/-! ## SipHash-1-3 (Rust `std::collections::hash_map::DefaultHasher`)

`Coupon::generate_hash` in `src/models.rs` feeds the three strings
through `DefaultHasher`, which is SipHash-1-3 with both keys zero.
Rust's `Hash for str` writes the UTF-8 bytes followed by a single
`0xff` byte.  We embed the full hash over `Nat` with explicit
`% 2^64` wrapping. -/

/-- Two to the sixty-fourth, the modulus of all 64-bit arithmetic here. -/
def M64 : Nat := 18446744073709551616

/-- Wrap a natural number to 64 bits. -/
def wrap64 (n : Nat) : Nat := n % M64

/-- Rotate a 64-bit value (given `< 2^64`) left by `r` bits. -/
def rotl64 (x r : Nat) : Nat := ((x <<< r) ||| (x >>> (64 - r))) % M64

/-- The four 64-bit words of SipHash internal state. -/
structure SipState where
  v0 : Nat
  v1 : Nat
  v2 : Nat
  v3 : Nat
deriving Repr, DecidableEq

/-- One SIPROUND, exactly the reference round function. -/
def sipRound (s : SipState) : SipState :=
  let v0 := wrap64 (s.v0 + s.v1)
  let v1 := rotl64 s.v1 13
  let v1 := v1 ^^^ v0
  let v0 := rotl64 v0 32
  let v2 := wrap64 (s.v2 + s.v3)
  let v3 := rotl64 s.v3 16
  let v3 := v3 ^^^ v2
  let v0 := wrap64 (v0 + v3)
  let v3 := rotl64 v3 21
  let v3 := v3 ^^^ v0
  let v2 := wrap64 (v2 + v1)
  let v1 := rotl64 v1 17
  let v1 := v1 ^^^ v2
  let v2 := rotl64 v2 32
  ⟨v0, v1, v2, v3⟩

/-- Iterate SIPROUND. -/
def sipRounds : Nat → SipState → SipState
  | 0, s => s
  | n + 1, s => sipRounds n (sipRound s)

/-- Compress one message word: xor into `v3`, `c` rounds, xor into `v0`. -/
def sipCompress (c : Nat) (m : Nat) (s : SipState) : SipState :=
  let s := { s with v3 := s.v3 ^^^ m }
  let s := sipRounds c s
  { s with v0 := s.v0 ^^^ m }

/-- Little-endian 64-bit word from at most eight bytes. -/
def le64 : List Nat → Nat
  | [] => 0
  | b :: bs => b % 256 + 256 * le64 bs

/-- Split a byte list into 8-byte blocks followed by one final partial
block of length `< 8` (possibly empty); fuel-driven so the kernel can
evaluate it. -/
def toBlocksF : Nat → List Nat → List (List Nat)
  | 0, bs => [bs]
  | fuel + 1, bs =>
    if bs.length < 8 then [bs]
    else bs.take 8 :: toBlocksF fuel (bs.drop 8)

/-- Split a byte list into SipHash blocks. -/
def toBlocks (bs : List Nat) : List (List Nat) := toBlocksF bs.length bs

/-- Process the blocks; the final (partial) block is combined with the
message length byte `len % 256` in the top byte. -/
def sipBlocks (c len : Nat) : List (List Nat) → SipState → SipState
  | [], s => s
  | [last], s => sipCompress c (wrap64 (le64 last + (len % 256) * 72057594037927936)) s
  | b :: rest, s => sipBlocks c len rest (sipCompress c (le64 b) s)

/-- SipHash-`c`-`d` of a byte list under keys `k0`, `k1`. -/
def sipHash (c d k0 k1 : Nat) (msg : List Nat) : Nat :=
  let s : SipState :=
    ⟨k0 ^^^ 0x736f6d6570736575, k1 ^^^ 0x646f72616e646f6d,
     k0 ^^^ 0x6c7967656e657261, k1 ^^^ 0x7465646279746573⟩
  let s := sipBlocks c msg.length (toBlocks msg) s
  let s := { s with v2 := s.v2 ^^^ 0xff }
  let s := sipRounds d s
  ((s.v0 ^^^ s.v1) ^^^ s.v2) ^^^ s.v3

/-- UTF-8 encoding of one Unicode code point. -/
def utf8CharBytes (n : Nat) : List Nat :=
  if n < 0x80 then [n]
  else if n < 0x800 then
    [0xC0 ||| (n >>> 6), 0x80 ||| (n &&& 0x3F)]
  else if n < 0x10000 then
    [0xE0 ||| (n >>> 12), 0x80 ||| ((n >>> 6) &&& 0x3F), 0x80 ||| (n &&& 0x3F)]
  else
    [0xF0 ||| (n >>> 18), 0x80 ||| ((n >>> 12) &&& 0x3F),
     0x80 ||| ((n >>> 6) &&& 0x3F), 0x80 ||| (n &&& 0x3F)]

/-- UTF-8 byte sequence of a string, as Rust's `str::as_bytes`. -/
def utf8Bytes (s : String) : List Nat :=
  (s.data.map fun c => utf8CharBytes c.toNat).flatten

/-- Lowercase hex rendering of a 64-bit value, Rust's `format "\x7b:x\x7d"`:
no padding, `"0"` for zero. -/
def hexOfNat (n : Nat) : String := String.mk (Nat.toDigits 16 n)

/-- Byte stream `DefaultHasher` consumes in `Coupon::generate_hash`:
Rust's `Hash for str` writes the UTF-8 bytes of the string followed by
one `0xff` terminator byte, for each of the three fields in order. -/
def hashStream (name code url : String) : List Nat :=
  utf8Bytes name ++ [0xff] ++ utf8Bytes code ++ [0xff] ++ utf8Bytes url ++ [0xff]

/-- `Coupon::generate_hash` (`src/models.rs`): feed `name`, `code`, `url`
through `DefaultHasher` (SipHash-1-3, both keys zero) and format the
64-bit result as lowercase hex. -/
def generate_hash (name code url : String) : String :=
  hexOfNat (sipHash 1 3 0 0 (hashStream name code url))

/-! ## Data model (`src/models.rs`, configuration part of `src/config.rs`) -/

/-- Instants of time; `Utc::now()` becomes an explicit parameter. -/
abbrev Time := Nat

/-- `DiscordConfig` (`src/models.rs`). -/
structure DiscordConfig where
  command_prefix : String
  status_message : String
  webhook_url : Option String
  channel_id : Option String
deriving Repr, DecidableEq

/-- `ScrapingConfig` (`src/models.rs`). -/
structure ScrapingConfig where
  default_interval : Nat
  max_concurrent : Nat
  user_agent : String
deriving Repr, DecidableEq

/-- `RssConfig` (`src/models.rs`). -/
structure RssConfig where
  items_per_feed : Nat
  refresh_interval : Nat
deriving Repr, DecidableEq

/-- `ApiConfig` (`src/models.rs`). -/
structure ApiConfig where
  enable : Bool
  port : Nat
  rate_limit : Nat
deriving Repr, DecidableEq

/-- `ProxyConfig` (`src/models.rs`). -/
structure ProxyConfig where
  enable : Bool
  proxies : String
  rotate_after : Nat
deriving Repr, DecidableEq

/-- `ValidationConfig` (`src/models.rs`): `enable` and `timeout`. -/
structure ValidationConfig where
  enable : Bool
  timeout : Nat
deriving Repr, DecidableEq

/-- `Config` (`src/models.rs`). -/
structure Config where
  discord : DiscordConfig
  scraping : ScrapingConfig
  rss : RssConfig
  api : ApiConfig
  proxy : ProxyConfig
  validation : ValidationConfig
deriving Repr, DecidableEq

/-- `Coupon` (`src/models.rs`); `discount_percentage : Option<f64>` is a
pass-through payload in every embedded code path and is modelled as
`Option Rat`. -/
structure Coupon where
  id : Option Int
  name : String
  description : String
  discount_percentage : Option Rat
  code : String
  url : String
  source : String
  expiry : Option Time
  created_at : Option Time
  validated_at : Option Time
  is_valid : Bool
  is_posted : Bool
  hash : String
deriving Repr, DecidableEq

/-- `Coupon::new` (`src/models.rs`): fresh coupon with the derived hash,
`created_at = now`, no validation timestamp, not valid, not posted. -/
def Coupon.new (name description : String) (discount_percentage : Option Rat)
    (code url source : String) (expiry : Option Time) (now : Time) : Coupon :=
  { id := none
    name := name
    description := description
    discount_percentage := discount_percentage
    code := code
    url := url
    source := source
    expiry := expiry
    created_at := some now
    validated_at := none
    is_valid := false
    is_posted := false
    hash := generate_hash name code url }

/-- `Coupon::is_expired` (`src/models.rs`): true exactly when an expiry
is present and strictly before now. -/
def Coupon.is_expired (c : Coupon) (now : Time) : Bool :=
  match c.expiry with
  | some expiry => decide (expiry < now)
  | none => false

/-- `ValidationResult` (`src/models.rs`). -/
structure ValidationResult where
  is_valid : Bool
  message : Option String
  validated_at : Time
deriving Repr, DecidableEq

/-! ## Validator subsystem (`src/validator.rs`)

Each strategy's `validate` performs HTTP I/O through a `reqwest::Client`;
the client is embedded as a function from URL to either a transport
error or a response.  `err` is the transport-error type (anyhow).  The
displayed form of a `reqwest::StatusCode` additionally carries the
canonical reason phrase; only the numeric code is rendered here — the
exact text of these per-strategy messages is outside every claim, which
depend only on validity flags and on which strategy is dispatched. -/

/-- An HTTP response: status code and body text. -/
structure HttpResponse where
  status : Nat
  body : String
deriving Repr, DecidableEq

/-- `reqwest::StatusCode::is_success`: 2xx. -/
def statusIsSuccess (s : Nat) : Bool := decide (200 ≤ s) && decide (s < 300)

/-- An HTTP client: URL to transport error or response. -/
def Http (err : Type) : Type := String → Except err HttpResponse

/-- Chars of `needle` appear contiguously in `hay` starting at its head. -/
def charsStart : List Char → List Char → Bool
  | [], _ => true
  | _ :: _, [] => false
  | a :: as, b :: bs => a == b && charsStart as bs

/-- Chars of `needle` appear contiguously somewhere in `hay`. -/
def charsSub (needle : List Char) : List Char → Bool
  | [] => needle.isEmpty
  | b :: bs => charsStart needle (b :: bs) || charsSub needle bs

/-- Rust `str::contains` with a string pattern: substring test. -/
def strContains (hay needle : String) : Bool := charsSub needle.data hay.data

/-- `Char::is_ascii_alphanumeric`. -/
def isAsciiAlphanumeric (c : Char) : Bool :=
  (decide ('a' ≤ c) && decide (c ≤ 'z')) || (decide ('A' ≤ c) && decide (c ≤ 'Z'))
    || (decide ('0' ≤ c) && decide (c ≤ '9'))

/-- A validator strategy (`trait CouponValidator`): its name, the
source-label predicate, and the validation action (HTTP already bound,
call instant `now` already bound, as in the Rust closure over
`&self.client` and `Utc::now()`). -/
structure Strategy (err : Type) where
  name : String
  can_validate : String → Bool
  validate : Coupon → Except err ValidationResult

/-- `CursorAIValidator::validate` (`src/validator.rs`). -/
def cursorAIValidate {err : Type} (client : Http err) (now : Time) (coupon : Coupon) :
    Except err ValidationResult :=
  if coupon.code == "STUDENT" && strContains coupon.url "/student" then
    match client coupon.url with
    | .error e => .error e
    | .ok response =>
      if statusIsSuccess response.status then
        .ok ⟨true, some "Student program verified as active", now⟩
      else
        .ok ⟨false, some ("Student program page returned status: "
              ++ toString response.status), now⟩
  else
    if decide (coupon.code.length ≥ 4)
        && coupon.code.data.all (fun c => isAsciiAlphanumeric c || c == '-') then
      .ok ⟨true, some "Coupon code format is valid", now⟩
    else
      .ok ⟨false, some "Invalid coupon code format", now⟩

/-- `GitHubValidator::validate` (`src/validator.rs`). -/
def gitHubValidate {err : Type} (client : Http err) (now : Time) (coupon : Coupon) :
    Except err ValidationResult :=
  match client coupon.url with
  | .error e => .error e
  | .ok response =>
    if statusIsSuccess response.status then
      if strContains response.body coupon.name then
        .ok ⟨true, some "Offer found on GitHub Education page", now⟩
      else
        .ok ⟨false, some "Offer not found on GitHub Education page", now⟩
    else
      .ok ⟨false, some ("GitHub Education page returned status: "
            ++ toString response.status), now⟩

/-- Shared shape of the Replit, Warp and Tabnine validators: fetch the
URL and report validity from the status code alone. -/
def pageCheckValidate {err : Type} (okMessage failPrefix : String)
    (client : Http err) (now : Time) (coupon : Coupon) : Except err ValidationResult :=
  match client coupon.url with
  | .error e => .error e
  | .ok response =>
    if statusIsSuccess response.status then
      .ok ⟨true, some okMessage, now⟩
    else
      .ok ⟨false, some (failPrefix ++ toString response.status), now⟩

/-- `GenericValidator::validate` (`src/validator.rs`). -/
def genericValidate {err : Type} (client : Http err) (now : Time) (coupon : Coupon) :
    Except err ValidationResult :=
  match client coupon.url with
  | .error e => .error e
  | .ok response =>
    if !statusIsSuccess response.status then
      .ok ⟨false, some ("Source page returned status: " ++ toString response.status), now⟩
    else
      if strContains response.body coupon.code then
        .ok ⟨true, some "Coupon code found on source page", now⟩
      else
        .ok ⟨false, some "Coupon code not found on source page", now⟩

/-- The main `Validator` struct: the ordered strategy registry and the
configuration (which, as in the source, `validate_coupon` never
consults). -/
structure Validator (err : Type) where
  validators : List (Strategy err)
  config : Config

/-- `Validator::new` (`src/validator.rs`): registers the six strategies
in source order.  The `can_validate` predicates compare the source
label with the `CouponSource::to_string` forms. -/
def Validator.new {err : Type} (config : Config) (client : Http err) (now : Time) :
    Validator err :=
  { validators :=
      [ ⟨"Cursor AI Validator", (· == "Cursor AI"), cursorAIValidate client now⟩,
        ⟨"GitHub Validator", (· == "GitHub"), gitHubValidate client now⟩,
        ⟨"Replit Validator", (· == "Replit"),
          pageCheckValidate "Education program verified as active"
            "Education program page returned status: " client now⟩,
        ⟨"Warp Validator", (· == "Warp"),
          pageCheckValidate "Student program verified as active"
            "Student program page returned status: " client now⟩,
        ⟨"Tabnine Validator", (· == "Tabnine"),
          pageCheckValidate "Student program verified as active"
            "Student program page returned status: " client now⟩,
        ⟨"Generic Validator", (· == "Generic"), genericValidate client now⟩ ],
    config := config }

/-- Strategy scan and fail-open fallback of `Validator::validate_coupon`
(`src/validator.rs` lines 62-77): invoke the first registered strategy
whose `can_validate` accepts the source; if none does, return the
permissive default outcome naming the source. -/
def Validator.dispatch {err : Type} (v : Validator err) (coupon : Coupon) (now : Time) :
    Except err ValidationResult :=
  match v.validators.find? (fun s => s.can_validate coupon.source) with
  | some s => s.validate coupon
  | none =>
    .ok ⟨true, some ("No validator available for source: " ++ coupon.source), now⟩

/-- `Validator::validate_coupon` (`src/validator.rs`): expiry
short-circuit, then strategy dispatch.  Note the source never reads
`self.config` here; in particular `config.validation.enable` does not
influence the result. -/
def Validator.validate_coupon {err : Type} (v : Validator err) (coupon : Coupon)
    (now : Time) : Except err ValidationResult :=
  if coupon.is_expired now then
    .ok ⟨false, some "Coupon has expired", now⟩
  else
    v.dispatch coupon now

/-! ## Persistence store (`src/db.rs`)

The SQLite `coupons` table is embedded as a list of rows plus the next
`AUTOINCREMENT` rowid.  Each store function takes a boolean oracle
`fail` injecting the transient-I/O failure mode every sqlx call has;
the data-dependent failure mode (the `UNIQUE` hash constraint on
insert) is represented separately. -/

/-- Store-side errors: a transient sqlx I/O failure or the `UNIQUE`
constraint violation on `hash`. -/
inductive DbError where
  | ioError
  | uniqueViolation
deriving Repr, DecidableEq

/-- One row of the `coupons` table.  `created_at` is `NOT NULL`;
`validated_at` is nullable; `is_valid` and `is_posted` are the two
flag columns; `hash` carries the `UNIQUE` constraint. -/
structure DbCoupon where
  id : Int
  name : String
  description : String
  discount_percentage : Option Rat
  code : String
  url : String
  source : String
  expiry : Option Time
  created_at : Time
  validated_at : Option Time
  is_valid : Bool
  is_posted : Bool
  hash : String
deriving Repr, DecidableEq

/-- The store: rows in insertion order and the next rowid. -/
structure Db where
  rows : List DbCoupon
  nextId : Int
deriving Repr, DecidableEq

/-- The freshly created store. -/
def Db.empty : Db := { rows := [], nextId := 1 }

/-- `db::coupon_exists`: `SELECT COUNT(*) ... WHERE hash = ?` compared
with zero. -/
def coupon_exists (fail : Bool) (db : Db) (hash : String) : Except DbError Bool :=
  if fail then .error .ioError
  else .ok (db.rows.any fun r => r.hash == hash)

/-- Row inserted by `db::insert_coupon`: the listed columns come from
the coupon (`created_at` defaulting to now when unset, `is_valid`
taken from the coupon); `validated_at` and `is_posted` are not in the
column list and take their defaults `NULL` and `0`. -/
def insertedRow (db : Db) (c : Coupon) (now : Time) : DbCoupon :=
  { id := db.nextId
    name := c.name
    description := c.description
    discount_percentage := c.discount_percentage
    code := c.code
    url := c.url
    source := c.source
    expiry := c.expiry
    created_at := c.created_at.getD now
    validated_at := none
    is_valid := c.is_valid
    is_posted := false
    hash := c.hash }

/-- `db::insert_coupon`: append the row and return
`last_insert_rowid`; fails on transient I/O or on a duplicate hash
(the `UNIQUE` constraint). -/
def insert_coupon (fail : Bool) (db : Db) (c : Coupon) (now : Time) :
    Except DbError (Int × Db) :=
  if fail then .error .ioError
  else if db.rows.any (fun r => r.hash == c.hash) then .error .uniqueViolation
  else .ok (db.nextId,
    { rows := db.rows ++ [insertedRow db c now], nextId := db.nextId + 1 })

/-- `db::update_validation_status`: `SET is_valid = ?, validated_at =
now WHERE id = ?`. -/
def update_validation_status (fail : Bool) (db : Db) (coupon_id : Int)
    (is_valid : Bool) (now : Time) : Except DbError Db :=
  if fail then .error .ioError
  else .ok { db with rows := db.rows.map fun r =>
    if r.id == coupon_id then { r with is_valid := is_valid, validated_at := some now }
    else r }

/-- `db::mark_as_posted`: `SET is_posted = 1 WHERE id = ?`. -/
def mark_as_posted (fail : Bool) (db : Db) (coupon_id : Int) : Except DbError Db :=
  if fail then .error .ioError
  else .ok { db with rows := db.rows.map fun r =>
    if r.id == coupon_id then { r with is_posted := true } else r }

/-- `db::get_valid_unposted_coupons`: `WHERE is_valid = 1 AND
is_posted = 0` (the source additionally orders by `created_at DESC`;
ordering does not affect which rows are selected). -/
def get_valid_unposted_coupons (db : Db) : List DbCoupon :=
  db.rows.filter fun r => r.is_valid && !r.is_posted

/-- `db::delete_expired_coupons`: `DELETE ... WHERE expiry IS NOT NULL
AND expiry < now`, returning the number of rows removed. -/
def delete_expired_coupons (db : Db) (now : Time) : Nat × Db :=
  let expired := db.rows.filter fun r =>
    match r.expiry with
    | some e => decide (e < now)
    | none => false
  (expired.length,
   { db with rows := db.rows.filter fun r =>
      match r.expiry with
      | some e => !decide (e < now)
      | none => true })

/-! ## Pipeline runner (`src/scheduler.rs`)

`process_coupon` and the batch loop of `run_scrape_task`.  The
environment collects, per candidate, the transient-failure oracles of
the four store calls and the outcome of the Discord delivery
(`send_coupon_notification` succeeds or fails); the validation outcome
comes from the embedded `Validator`.  Because a Rust `?` failure
leaves the store mutations already performed, every function returns
the store state alongside the `Result`. -/

/-- Per-candidate environment: transient-failure oracles for the store
calls made by `process_coupon`, and whether the Discord notification
delivery succeeds. -/
structure PipelineEnv where
  existsFail : Bool
  insertFail : Bool
  updateFail : Bool
  postFail : Bool
  notifyOk : Bool
deriving Repr, DecidableEq

/-- The environment in which every store call and the notification
succeed. -/
def PipelineEnv.allOk : PipelineEnv :=
  { existsFail := false, insertFail := false, updateFail := false,
    postFail := false, notifyOk := true }

/-- The store calls of an environment succeed (delivery unconstrained). -/
def PipelineEnv.dbOk (env : PipelineEnv) : Prop :=
  env.existsFail = false ∧ env.insertFail = false ∧ env.updateFail = false
    ∧ env.postFail = false

instance (env : PipelineEnv) : Decidable env.dbOk := by
  unfold PipelineEnv.dbOk; infer_instance

/-- `process_coupon` (`src/scheduler.rs`): dedup gate, insert,
validation, status update, notification, posted flag.  Returns the
resulting store and the `Result<()>` value: validation errors and
notification failures are swallowed (logged only), while every store
error propagates through `?`. -/
def process_coupon {err : Type} (env : PipelineEnv) (v : Validator err) (now : Time)
    (db : Db) (c : Coupon) : Db × Except DbError Unit :=
  match coupon_exists env.existsFail db c.hash with
  | .error e => (db, .error e)
  | .ok true => (db, .ok ())
  | .ok false =>
    match insert_coupon env.insertFail db c now with
    | .error e => (db, .error e)
    | .ok (coupon_id, db1) =>
      match v.validate_coupon c now with
      | .error _ => (db1, .ok ())
      | .ok validation_result =>
        match update_validation_status env.updateFail db1 coupon_id
            validation_result.is_valid now with
        | .error e => (db1, .error e)
        | .ok db2 =>
          if validation_result.is_valid then
            if env.notifyOk then
              match mark_as_posted env.postFail db2 coupon_id with
              | .error e => (db2, .error e)
              | .ok db3 => (db3, .ok ())
            else (db2, .ok ())
          else (db2, .ok ())

/-- The batch loop of `run_scrape_task` (`src/scheduler.rs` lines
135-141): process the collected candidates in order; `process_coupon(...)
.await?` aborts the loop at the first store error.  `envAt i` is the
environment of the `i`-th processed candidate. -/
def processFrom {err : Type} (v : Validator err) (now : Time)
    (envAt : Nat → PipelineEnv) : Nat → List Coupon → Db → Db × Except DbError Unit
  | _, [], db => (db, .ok ())
  | i, c :: rest, db =>
    match process_coupon (envAt i) v now db c with
    | (db1, .ok _) => processFrom v now envAt (i + 1) rest db1
    | (db1, .error e) => (db1, .error e)

/-- Number of candidates that receive a processing attempt (a
`process_coupon` invocation) in the batch loop before it stops. -/
def processedFrom {err : Type} (v : Validator err) (now : Time)
    (envAt : Nat → PipelineEnv) : Nat → List Coupon → Db → Nat
  | _, [], _ => 0
  | i, c :: rest, db =>
    match process_coupon (envAt i) v now db c with
    | (db1, .ok _) => 1 + processedFrom v now envAt (i + 1) rest db1
    | (_, .error _) => 1

/-- The collection phase of `run_scrape_task` (`src/scheduler.rs` lines
116-133): each scraper's outcome is matched; a success extends the
candidate list, a failure is logged and contributes nothing. -/
def collectCoupons {serr : Type} (results : List (Except serr (List Coupon))) :
    List Coupon :=
  results.foldl (fun acc r =>
    match r with
    | .ok coupons => acc ++ coupons
    | .error _ => acc) []

/-- `run_scrape_task` (`src/scheduler.rs`), given the outcomes of the
scrapers: collect all candidates, then run the batch loop over them. -/
def run_scrape_task {err serr : Type} (results : List (Except serr (List Coupon)))
    (v : Validator err) (now : Time) (envAt : Nat → PipelineEnv) (db : Db) :
    Db × Except DbError Unit :=
  processFrom v now envAt 0 (collectCoupons results) db

/-- `run_cleanup_task` (`src/scheduler.rs`): delete expired rows. -/
def run_cleanup_task (db : Db) (now : Time) : Nat × Db :=
  delete_expired_coupons db now

/-! ## Concrete fixtures for witnesses and counterexamples -/

/-- A concrete configuration with validation enabled. -/
def cfgDefault : Config :=
  { discord := { command_prefix := "!", status_message := "hi",
                 webhook_url := none, channel_id := none }
    scraping := { default_interval := 60, max_concurrent := 5, user_agent := "RinKokonoe" }
    rss := { items_per_feed := 10, refresh_interval := 60 }
    api := { enable := false, port := 8080, rate_limit := 60 }
    proxy := { enable := false, proxies := "", rotate_after := 10 }
    validation := { enable := true, timeout := 30 } }

/-- The same configuration with `validation.enable = false`. -/
def cfgValidationOff : Config :=
  { cfgDefault with validation := { enable := false, timeout := 30 } }

/-- An HTTP client whose every request fails with a transport error. -/
def offlineHttp : Http String := fun _ => .error "connection refused"

/-- The real six-strategy registry over the offline client. -/
def vReg : Validator String := Validator.new cfgValidationOff offlineHttp 10

/-- The registry with validation enabled, over the offline client. -/
def vRegOn : Validator String := Validator.new cfgDefault offlineHttp 10

/-- A coupon already expired at instant 10 (expiry 5). -/
def couponExpired : Coupon :=
  Coupon.new "X Pro" "An offer" none "ABC123" "http://x.test/offer" "Generic" (some 5) 3

/-- A Generic-source coupon not yet expired at instant 10 (expiry 99). -/
def couponGeneric : Coupon :=
  Coupon.new "X Pro" "An offer" none "ABC123" "http://x.test/offer" "Generic" (some 99) 3

/-- A coupon with no expiry and a source label no strategy accepts. -/
def couponNoExpiry : Coupon :=
  Coupon.new "X Pro" "An offer" none "ABC123" "http://x.test/offer" "Unknown Source" none 3

/-! ## Claims about validation dispatch -/

/-- C3: a coupon whose expiry is set and in the past is short-circuited
by `validate_coupon` to the invalid "Coupon has expired" outcome, for
every validator value — hence without invoking any registered strategy
and regardless of which strategies are registered. -/
theorem expiry_short_circuit {err : Type} (v : Validator err) (c : Coupon)
    (e now : Time) (hexp : c.expiry = some e) (hpast : e < now) :
    v.validate_coupon c now = .ok ⟨false, some "Coupon has expired", now⟩ := by
  have hx : c.is_expired now = true := by
    unfold Coupon.is_expired; rw [hexp]; simpa using hpast
  simp [Validator.validate_coupon, hx]

/-- Witness for C3: the concrete expired coupon under the real
six-strategy registry. -/
theorem expiry_short_circuit_witness :
    vRegOn.validate_coupon couponExpired 10
      = .ok ⟨false, some "Coupon has expired", 10⟩ :=
  expiry_short_circuit vRegOn couponExpired 5 10 rfl (by decide)

/-- C10: a coupon with no expiry timestamp is never considered expired,
so `validate_coupon` never takes the expiry short-circuit on it and
proceeds to strategy dispatch. -/
theorem no_expiry_never_expired {err : Type} (v : Validator err) (c : Coupon)
    (now : Time) (h : c.expiry = none) :
    c.is_expired now = false ∧ v.validate_coupon c now = v.dispatch c now := by
  have hx : c.is_expired now = false := by
    unfold Coupon.is_expired; rw [h]
  exact ⟨hx, by simp [Validator.validate_coupon, hx]⟩

/-- Witness for C10: the concrete no-expiry coupon under the real
registry. -/
theorem no_expiry_never_expired_witness :
    couponNoExpiry.is_expired 10 = false ∧
    vRegOn.validate_coupon couponNoExpiry 10 = vRegOn.dispatch couponNoExpiry 10 :=
  no_expiry_never_expired vRegOn couponNoExpiry 10 rfl

/-- C4: for a non-expired coupon, if no registered strategy's
`can_validate` accepts its source, `validate_coupon` returns the
fail-open outcome naming the unmatched source; and whenever the
registry splits as `pre ++ s :: post` with every strategy in `pre`
rejecting the source and `s` accepting it (i.e. `s` is the first match
in registration order), `s` is the strategy invoked. -/
theorem dispatch_fail_open_or_first_match {err : Type} (v : Validator err) (c : Coupon)
    (now : Time) (hne : c.is_expired now = false) :
    ((∀ s ∈ v.validators, s.can_validate c.source = false) →
        v.validate_coupon c now
          = .ok ⟨true, some ("No validator available for source: " ++ c.source), now⟩)
    ∧ ∀ pre s post, v.validators = pre ++ s :: post →
        (∀ t ∈ pre, t.can_validate c.source = false) →
        s.can_validate c.source = true →
        v.validate_coupon c now = s.validate c := by
  constructor
  · intro hall
    have hfind : v.validators.find? (fun s => s.can_validate c.source) = none :=
      List.find?_eq_none.mpr (by intro s hs; simp [hall s hs])
    simp [Validator.validate_coupon, hne, Validator.dispatch, hfind]
  · intro pre s post hv hpre hs
    have hprenone : pre.find? (fun t => t.can_validate c.source) = none :=
      List.find?_eq_none.mpr (by intro t ht; simp [hpre t ht])
    have hfind : v.validators.find? (fun t => t.can_validate c.source) = some s := by
      have hcons : List.find? (fun t => t.can_validate c.source) (s :: post) = some s :=
        List.find?_cons_of_pos post (by simpa using hs)
      rw [hv, List.find?_append, hprenone, hcons]
      rfl
    simp [Validator.validate_coupon, hne, Validator.dispatch, hfind]

/-- Witness for C4 (fail-open side): the "Unknown Source" coupon under
the real registry falls through to the permissive default naming the
source. -/
theorem dispatch_fail_open_witness :
    vRegOn.validate_coupon couponNoExpiry 10
      = .ok ⟨true, some ("No validator available for source: " ++ couponNoExpiry.source), 10⟩ :=
  (dispatch_fail_open_or_first_match vRegOn couponNoExpiry 10 rfl).1 (by
    intro s hs
    simp [vRegOn, Validator.new] at hs
    rcases hs with rfl | rfl | rfl | rfl | rfl | rfl <;> rfl)

/-- C2 is false of the code (`code_bug` record): `validate_coupon`
never reads `config.validation.enable`, so with
`validation.enable = false` the dispatch step is not skipped and the
outcome does not default to valid.  Concretely, under the disabled
configuration an expired coupon still comes back invalid, and a
Generic-source coupon still has its strategy invoked (here surfacing
the strategy's transport error). -/
theorem validation_disabled_not_honored :
    cfgValidationOff.validation.enable = false
    ∧ vReg.validate_coupon couponExpired 10
        = .ok ⟨false, some "Coupon has expired", 10⟩
    ∧ vReg.validate_coupon couponGeneric 10 = .error "connection refused" :=
  ⟨rfl, rfl, rfl⟩

/-! ## Claim about the fingerprint -/

/-- C6: the fingerprint is a pure, deterministic function of exactly
the `(name, code, url)` triple: identical triples yield the identical
fingerprint (and the embedding has no random seed or hidden state —
`DefaultHasher` fixes both SipHash keys to zero), and at explicit
triples, changing any one of the three fields changes the output. -/
theorem fingerprint_deterministic :
    (∀ name code url name2 code2 url2, name = name2 → code = code2 → url = url2 →
        generate_hash name code url = generate_hash name2 code2 url2)
    ∧ generate_hash "X Pro" "ABC123" "http://x.test/offer"
        ≠ generate_hash "Y Pro" "ABC123" "http://x.test/offer"
    ∧ generate_hash "X Pro" "ABC123" "http://x.test/offer"
        ≠ generate_hash "X Pro" "ABC124" "http://x.test/offer"
    ∧ generate_hash "X Pro" "ABC123" "http://x.test/offer"
        ≠ generate_hash "X Pro" "ABC123" "http://x.test/offers" := by
  refine ⟨?_, by decide, by decide, by decide⟩
  intro _ _ _ _ _ _ h1 h2 h3
  rw [h1, h2, h3]

/-- Witness for C6: the determinism component applied at a concrete
triple. -/
theorem fingerprint_deterministic_witness :
    generate_hash "X Pro" "ABC123" "http://x.test/offer"
      = generate_hash "X Pro" "ABC123" "http://x.test/offer" :=
  fingerprint_deterministic.1 "X Pro" "ABC123" "http://x.test/offer" _ _ _ rfl rfl rfl

/-! ## Pipeline helper lemmas -/

/-- Number of rows carrying a given hash. -/
def countHash (db : Db) (h : String) : Nat :=
  (db.rows.filter fun r => r.hash == h).length

/-- Number of posted rows. -/
def countPosted (db : Db) : Nat :=
  (db.rows.filter fun r => r.is_posted).length

/-- When every store call succeeds, `process_coupon` returns `Ok(())`:
validation errors and notification failures are swallowed. -/
theorem process_coupon_result_ok {err : Type} (env : PipelineEnv) (v : Validator err)
    (now : Time) (db : Db) (c : Coupon) (h : env.dbOk) :
    (process_coupon env v now db c).2 = .ok () := by
  obtain ⟨h1, h2, h3, h4⟩ := h
  unfold process_coupon
  cases hany : db.rows.any (fun r => r.hash == c.hash) with
  | true => simp [coupon_exists, h1, hany]
  | false =>
    cases hval : v.validate_coupon c now with
    | error e => simp [coupon_exists, insert_coupon, h1, h2, hany, hval]
    | ok vr =>
      cases hb : vr.is_valid with
      | false =>
        simp [coupon_exists, insert_coupon, update_validation_status, h1, h2, h3,
          hany, hval, hb]
      | true =>
        cases hn : env.notifyOk with
        | false =>
          simp [coupon_exists, insert_coupon, update_validation_status, h1, h2, h3,
            hany, hval, hb, hn]
        | true =>
          simp [coupon_exists, insert_coupon, update_validation_status, mark_as_posted,
            h1, h2, h3, h4, hany, hval, hb, hn]

/-- When every store call of every environment succeeds, the batch loop
gives each collected candidate a processing attempt, whatever the
validation outcomes and delivery results are. -/
theorem processedFrom_eq_length {err : Type} (v : Validator err) (now : Time)
    (envAt : Nat → PipelineEnv) (hall : ∀ j, (envAt j).dbOk) :
    ∀ (cs : List Coupon) (i : Nat) (db : Db), processedFrom v now envAt i cs db = cs.length := by
  intro cs
  induction cs with
  | nil => intro i db; rfl
  | cons c rest ih =>
    intro i db
    have hok := process_coupon_result_ok (envAt i) v now db c (hall i)
    cases hpc : process_coupon (envAt i) v now db c with
    | mk db1 r =>
      rw [hpc] at hok
      subst hok
      simp only [processedFrom, hpc, ih rest.length, List.length_cons]
      rw [ih (i + 1) db1]
      omega

/-! ## C1: per-candidate failure isolation (corrected) -/

/-- Counterexample to C1 as stated: with a transient insert failure on
the first candidate, the batch loop of `run_scrape_task` stops after
one processing attempt, so the second collected candidate never gets
one — an insert error is not caught but propagates through `?` and
aborts the rest of the batch. -/
def envInsertFailAtZero : Nat → PipelineEnv :=
  fun i => if i == 0 then { PipelineEnv.allOk with insertFail := true } else PipelineEnv.allOk

/-- Second concrete candidate for batch counterexamples. -/
def couponB : Coupon :=
  Coupon.new "Y Pro" "Another offer" none "XYZ789" "http://y.test/offer" "GitHub" none 3

/-- C1 counterexample: two collected candidates, an insert error on the
first, only one processing attempt happens. -/
theorem insert_error_stops_batch :
    processedFrom vReg 10 envInsertFailAtZero 0 [couponGeneric, couponB] Db.empty = 1
    ∧ [couponGeneric, couponB].length = 2 :=
  ⟨rfl, rfl⟩

/-- C1 amended: per-candidate validation errors and notification
failures are caught and logged and do not stop processing of
subsequent candidates — when the store calls themselves succeed, the
batch attempts every collected candidate; store errors (dedup check,
insert, status update, mark-posted), however, propagate and abort the
remainder of the batch (see the counterexample). -/
theorem batch_attempts_every_candidate_when_store_ok {err : Type} (v : Validator err)
    (now : Time) (envAt : Nat → PipelineEnv) (cs : List Coupon) (db : Db)
    (hall : ∀ j, (envAt j).dbOk) :
    processedFrom v now envAt 0 cs db = cs.length :=
  processedFrom_eq_length v now envAt hall cs 0 db

/-- A validator registry whose single strategy always fails with a
transport error, for exercising the caught-validation-error path. -/
def vErr : Validator String :=
  { validators := [⟨"Failing Validator", fun _ => true, fun _ => .error "timeout"⟩]
    config := cfgDefault }

/-- Environment whose store calls succeed but whose delivery fails. -/
def envNotifyFail : PipelineEnv := { PipelineEnv.allOk with notifyOk := false }

/-- Witness for the amended C1: both candidates are attempted even
though every validation errors out and delivery would fail. -/
theorem batch_attempts_every_candidate_witness :
    processedFrom vErr 10 (fun _ => envNotifyFail) 0 [couponGeneric, couponB] Db.empty = 2 :=
  batch_attempts_every_candidate_when_store_ok vErr 10 (fun _ => envNotifyFail)
    [couponGeneric, couponB] Db.empty (fun _ => ⟨rfl, rfl, rfl, rfl⟩)

/-! ## C7: collector failure isolation -/

/-- Folding the collection loop from any accumulator appends the
candidates collected from the empty accumulator. -/
theorem collect_foldl {serr : Type} :
    ∀ (l : List (Except serr (List Coupon))) (acc : List Coupon),
    l.foldl (fun acc r =>
      match r with
      | .ok coupons => acc ++ coupons
      | .error _ => acc) acc
      = acc ++ l.foldl (fun acc r =>
          match r with
          | .ok coupons => acc ++ coupons
          | .error _ => acc) [] := by
  intro l
  induction l with
  | nil => intro acc; simp
  | cons x t ih =>
    intro acc
    cases x with
    | ok coupons =>
      simp only [List.foldl_cons, List.nil_append]
      rw [ih (acc ++ coupons), ih coupons, List.append_assoc]
    | error e =>
      simp only [List.foldl_cons]
      exact ih acc

/-- The collection loop distributes over concatenation of scraper
outcome lists. -/
theorem collectCoupons_append {serr : Type} (xs ys : List (Except serr (List Coupon))) :
    collectCoupons (xs ++ ys) = collectCoupons xs ++ collectCoupons ys := by
  unfold collectCoupons
  rw [List.foldl_append, collect_foldl]

/-- C7: each collector is consulted independently; a failing collector
contributes zero candidates (the collected batch is exactly the
concatenation of the surrounding collectors' candidates), its failure
is not raised further (the whole run behaves exactly as if that
collector had returned no candidates), and when the store calls
succeed the batch still gives a processing attempt to every candidate
returned by the other collectors. -/
theorem collector_failure_isolated {err serr : Type} (v : Validator err) (now : Time)
    (envAt : Nat → PipelineEnv) (e : serr)
    (pre post : List (Except serr (List Coupon))) (db : Db)
    (hall : ∀ j, (envAt j).dbOk) :
    collectCoupons (pre ++ .error e :: post) = collectCoupons pre ++ collectCoupons post
    ∧ run_scrape_task (pre ++ .error e :: post) v now envAt db
        = run_scrape_task (pre ++ .ok [] :: post) v now envAt db
    ∧ processedFrom v now envAt 0 (collectCoupons (pre ++ .error e :: post)) db
        = (collectCoupons pre ++ collectCoupons post).length := by
  have hcons : collectCoupons (Except.error e :: post) = collectCoupons post := rfl
  have hnil : collectCoupons (Except.ok [] :: post) = collectCoupons post := rfl
  have herr : collectCoupons (pre ++ .error e :: post)
      = collectCoupons pre ++ collectCoupons post := by
    rw [collectCoupons_append, hcons]
  have hok : collectCoupons (pre ++ .ok [] :: post)
      = collectCoupons pre ++ collectCoupons post := by
    rw [collectCoupons_append, hnil]
  refine ⟨herr, ?_, ?_⟩
  · unfold run_scrape_task
    rw [herr, hok]
  · rw [herr, processedFrom_eq_length v now envAt hall]

/-- The concrete scraper outcomes for the C7 witness: the middle of
three collectors fails. -/
def scrapeMidFail : List (Except String (List Coupon)) :=
  [.ok [couponGeneric]] ++ .error "boom" :: [.ok [couponB]]

/-- The same outcomes with the failing collector replaced by an empty
success. -/
def scrapeMidEmpty : List (Except String (List Coupon)) :=
  [.ok [couponGeneric]] ++ .ok [] :: [.ok [couponB]]

/-- Witness for C7: three collectors, the middle one fails, both
remaining candidates are collected and attempted. -/
theorem collector_failure_isolated_witness :
    collectCoupons scrapeMidFail
      = collectCoupons [(.ok [couponGeneric] : Except String (List Coupon))]
        ++ collectCoupons [(.ok [couponB] : Except String (List Coupon))]
    ∧ run_scrape_task scrapeMidFail vErr 10 (fun _ => PipelineEnv.allOk) Db.empty
      = run_scrape_task scrapeMidEmpty vErr 10 (fun _ => PipelineEnv.allOk) Db.empty
    ∧ processedFrom vErr 10 (fun _ => PipelineEnv.allOk) 0
        (collectCoupons scrapeMidFail) Db.empty
      = (collectCoupons [(.ok [couponGeneric] : Except String (List Coupon))]
          ++ collectCoupons [(.ok [couponB] : Except String (List Coupon))]).length :=
  collector_failure_isolated vErr 10 (fun _ => PipelineEnv.allOk) "boom"
    [.ok [couponGeneric]] [.ok [couponB]] Db.empty (fun _ => ⟨rfl, rfl, rfl, rfl⟩)

/-! ## C5: dedup idempotence -/

/-- Filtering after a row-wise map that preserves the predicate leaves
the count unchanged. -/
theorem filter_length_map (f : DbCoupon → DbCoupon) (p : DbCoupon → Bool)
    (hf : ∀ r, p (f r) = p r) (l : List DbCoupon) :
    ((l.map f).filter p).length = (l.filter p).length := by
  rw [List.filter_map, List.length_map]
  congr 1
  apply List.filter_congr
  intro r _
  simp [Function.comp, hf r]

/-- The status-update row transform preserves every hash. -/
theorem update_row_hash (cid : Int) (b : Bool) (now : Time) (r : DbCoupon) :
    (if r.id == cid then { r with is_valid := b, validated_at := some now } else r).hash
      = r.hash := by
  by_cases hr : r.id == cid <;> simp [hr]

/-- The mark-posted row transform preserves every hash. -/
theorem post_row_hash (cid : Int) (r : DbCoupon) :
    (if r.id == cid then { r with is_posted := true } else r).hash = r.hash := by
  by_cases hr : r.id == cid <;> simp [hr]

/-- Processing a candidate whose fingerprint is not yet in the store,
with all store calls succeeding, leaves exactly one row with that
fingerprint, whatever the validation and delivery outcomes. -/
theorem process_coupon_fresh_count {err : Type} (env : PipelineEnv) (v : Validator err)
    (now : Time) (db : Db) (c : Coupon) (h : env.dbOk)
    (hfresh : db.rows.any (fun r => r.hash == c.hash) = false) :
    countHash (process_coupon env v now db c).1 c.hash = 1 := by
  obtain ⟨h1, h2, h3, h4⟩ := h
  have hnil : db.rows.filter (fun r => r.hash == c.hash) = [] := by
    rw [List.filter_eq_nil_iff]
    intro r hr
    simpa using List.any_eq_false.mp hfresh r hr
  have hins : countHash
      { rows := db.rows ++ [insertedRow db c now], nextId := db.nextId + 1 } c.hash = 1 := by
    unfold countHash
    rw [List.filter_append, hnil]
    simp [insertedRow]
  unfold process_coupon
  cases hval : v.validate_coupon c now with
  | error e =>
    simpa [coupon_exists, insert_coupon, h1, h2, hfresh, hval] using hins
  | ok vr =>
    cases hb : vr.is_valid with
    | false =>
      simp only [coupon_exists, insert_coupon, update_validation_status, h1, h2, h3,
        hfresh, hval, hb, Bool.false_eq_true, if_false, ite_false]
      simp only [countHash] at hins ⊢
      rw [filter_length_map _ _ (fun r => by
        rw [update_row_hash db.nextId false now r])]
      exact hins
    | true =>
      cases hn : env.notifyOk with
      | false =>
        simp only [coupon_exists, insert_coupon, update_validation_status, h1, h2, h3,
          hfresh, hval, hb, hn, Bool.false_eq_true, if_false, if_true, ite_false, ite_true]
        simp only [countHash] at hins ⊢
        rw [filter_length_map _ _ (fun r => by
          rw [update_row_hash db.nextId true now r])]
        exact hins
      | true =>
        simp only [coupon_exists, insert_coupon, update_validation_status, mark_as_posted,
          h1, h2, h3, h4, hfresh, hval, hb, hn, Bool.false_eq_true, if_false, if_true,
          ite_false, ite_true]
        simp only [countHash] at hins ⊢
        rw [filter_length_map _ _ (fun r => by rw [post_row_hash db.nextId r]),
          filter_length_map _ _ (fun r => by
            rw [update_row_hash db.nextId true now r])]
        exact hins

/-- The dedup gate: a candidate whose fingerprint already exists in
the store is dropped silently — `Ok(())`, store unchanged — whatever
the validator, the validation outcome and the delivery behavior. -/
theorem process_coupon_existing {err : Type} (env : PipelineEnv) (v : Validator err)
    (now : Time) (db : Db) (c : Coupon) (h2 : env.existsFail = false)
    (hany : db.rows.any (fun r => r.hash == c.hash) = true) :
    process_coupon env v now db c = (db, .ok ()) := by
  unfold process_coupon
  simp [coupon_exists, h2, hany]

/-- C5: processing the same candidate twice persists exactly one
record.  A candidate whose fingerprint is already stored is dropped
silently — the result is `Ok(())` and the store value is returned
unchanged, for any validator and any store/delivery behavior of the
second pass (so no insert, validation or notification can have touched
the store) — hence after a first successful pass the second pass is a
no-op. -/
theorem dedup_idempotent {err err2 : Type} (v : Validator err) (v2 : Validator err2)
    (env1 env2 : PipelineEnv) (now1 now2 : Time) (db : Db) (c : Coupon)
    (h1 : env1.dbOk) (h2 : env2.existsFail = false)
    (hfresh : db.rows.any (fun r => r.hash == c.hash) = false) :
    countHash (process_coupon env1 v now1 db c).1 c.hash = 1
    ∧ process_coupon env2 v2 now2 (process_coupon env1 v now1 db c).1 c
        = ((process_coupon env1 v now1 db c).1, .ok ()) := by
  have hcount := process_coupon_fresh_count env1 v now1 db c h1 hfresh
  have hne : ((process_coupon env1 v now1 db c).1.rows.filter
      fun r => r.hash == c.hash) ≠ [] := by
    intro hnil
    unfold countHash at hcount
    rw [hnil] at hcount
    simp at hcount
  have hany : (process_coupon env1 v now1 db c).1.rows.any
      (fun r => r.hash == c.hash) = true := by
    rcases List.exists_mem_of_ne_nil _ hne with ⟨r, hr⟩
    rcases List.mem_filter.mp hr with ⟨hmem, hp⟩
    exact List.any_eq_true.mpr ⟨r, hmem, hp⟩
  exact ⟨hcount, process_coupon_existing env2 v2 now2 _ c h2 hany⟩

/-- An HTTP client always returning a successful page that mentions the
code `ABC123`. -/
def pageHttp : Http String := fun _ => .ok ⟨200, "Use code ABC123 today"⟩

/-- The real registry over the always-successful client. -/
def vRegOnline : Validator String := Validator.new cfgDefault pageHttp 10

/-- Witness for C5: a Generic coupon pushed through the pipeline twice
against an initially empty store ends with exactly one row, and the
second pass returns the store unchanged. -/
theorem dedup_idempotent_witness :
    countHash (process_coupon PipelineEnv.allOk vRegOnline 10 Db.empty couponGeneric).1
        couponGeneric.hash = 1
    ∧ process_coupon PipelineEnv.allOk vRegOnline 11
          (process_coupon PipelineEnv.allOk vRegOnline 10 Db.empty couponGeneric).1
          couponGeneric
        = ((process_coupon PipelineEnv.allOk vRegOnline 10 Db.empty couponGeneric).1,
            .ok ()) :=
  dedup_idempotent vRegOnline vRegOnline PipelineEnv.allOk PipelineEnv.allOk 10 11
    Db.empty couponGeneric ⟨rfl, rfl, rfl, rfl⟩ rfl rfl

/-! ## C9: delivery failure leaves a valid, unposted, retryable row -/

/-- The status-update row transform preserves the posted flag. -/
theorem update_row_posted (cid : Int) (b : Bool) (now : Time) (r : DbCoupon) :
    (if r.id == cid then { r with is_valid := b, validated_at := some now } else r).is_posted
      = r.is_posted := by
  by_cases hr : r.id == cid <;> simp [hr]

/-- C9: when the notifier fails for a record that validated as valid,
`process_coupon` still returns `Ok(())` (the error is only logged), the
new row is valid and unposted and is selected by the valid-and-unposted
query, and no posted flag anywhere in the store was set. -/
theorem notify_failure_leaves_retryable {err : Type} (v : Validator err)
    (env : PipelineEnv) (now : Time) (db : Db) (c : Coupon) (vr : ValidationResult)
    (henv : env.dbOk) (hnotify : env.notifyOk = false)
    (hfresh : db.rows.any (fun r => r.hash == c.hash) = false)
    (hval : v.validate_coupon c now = .ok vr) (hvalid : vr.is_valid = true) :
    (process_coupon env v now db c).2 = .ok ()
    ∧ (∃ r ∈ (process_coupon env v now db c).1.rows,
        r.hash = c.hash ∧ r.is_valid = true ∧ r.is_posted = false
          ∧ r ∈ get_valid_unposted_coupons (process_coupon env v now db c).1)
    ∧ countPosted (process_coupon env v now db c).1 = countPosted db := by
  obtain ⟨h1, h2, h3, h4⟩ := henv
  have hstate : process_coupon env v now db c
      = ({ rows := (db.rows ++ [insertedRow db c now]).map
            (fun r => if r.id == db.nextId
              then { r with is_valid := true, validated_at := some now } else r),
           nextId := db.nextId + 1 }, .ok ()) := by
    unfold process_coupon
    simp [coupon_exists, insert_coupon, update_validation_status, h1, h2, h3,
      hfresh, hval, hvalid, hnotify]
  rw [hstate]
  refine ⟨rfl, ?_, ?_⟩
  · refine ⟨{ insertedRow db c now with is_valid := true, validated_at := some now },
      ?_, rfl, rfl, rfl, ?_⟩
    · simp [insertedRow]
    · rw [get_valid_unposted_coupons, List.mem_filter]
      exact ⟨by simp [insertedRow], rfl⟩
  · unfold countPosted
    rw [filter_length_map _ _ (fun r => by rw [update_row_posted db.nextId true now r]),
      List.filter_append]
    simp [insertedRow]

/-- Witness for C9: concrete valid coupon, failing delivery — result is
`Ok(())` and the posted count of the store is unchanged. -/
theorem notify_failure_leaves_retryable_witness :
    (process_coupon envNotifyFail vRegOnline 10 Db.empty couponGeneric).2 = .ok ()
    ∧ countPosted (process_coupon envNotifyFail vRegOnline 10 Db.empty couponGeneric).1
        = countPosted Db.empty :=
  ⟨(notify_failure_leaves_retryable vRegOnline envNotifyFail 10 Db.empty couponGeneric
      ⟨true, some "Coupon code found on source page", 10⟩
      ⟨rfl, rfl, rfl, rfl⟩ rfl rfl rfl rfl).1,
   (notify_failure_leaves_retryable vRegOnline envNotifyFail 10 Db.empty couponGeneric
      ⟨true, some "Coupon code found on source page", 10⟩
      ⟨rfl, rfl, rfl, rfl⟩ rfl rfl rfl rfl).2.2⟩

/-! ## C8: posted-implies-valid invariant and posted monotonicity

The store states reachable by pipeline operations (candidate
processing and the cleanup sweep) starting from the fresh store. -/

/-- Look a row up by id (`WHERE id = ?` against the unique rowid). -/
def findRow (db : Db) (i : Int) : Option DbCoupon :=
  db.rows.find? fun r => r.id == i

/-- Store well-formedness: every rowid is below the next `AUTOINCREMENT`
value and rowids are pairwise distinct. -/
def DbWF (db : Db) : Prop :=
  (∀ r ∈ db.rows, r.id < db.nextId) ∧ db.rows.Pairwise (fun a b => a.id ≠ b.id)

/-- The C8 record invariant: a posted row is valid and has a validation
timestamp. -/
def DbInv (db : Db) : Prop :=
  ∀ r ∈ db.rows, r.is_posted = true → r.is_valid = true ∧ r.validated_at ≠ none

/-- Store state of a successful insert of a fresh candidate. -/
def insertDb (db : Db) (c : Coupon) (now : Time) : Db :=
  { rows := db.rows ++ [insertedRow db c now], nextId := db.nextId + 1 }

/-- Store state of a successful validation-status update. -/
def updateDb (db : Db) (cid : Int) (b : Bool) (now : Time) : Db :=
  { db with rows := db.rows.map fun r =>
      if r.id == cid then { r with is_valid := b, validated_at := some now } else r }

/-- Store state of a successful mark-posted. -/
def postDb (db : Db) (cid : Int) : Db :=
  { db with rows := db.rows.map fun r =>
      if r.id == cid then { r with is_posted := true } else r }

/-- One store transition the pipeline can make: processing one
candidate (any environment, any instant) or the cleanup sweep. -/
inductive PipelineOp {err : Type} (v : Validator err) : Db → Db → Prop
  | scrape (env : PipelineEnv) (now : Time) (c : Coupon) (db : Db) :
      PipelineOp v db (process_coupon env v now db c).1
  | cleanup (now : Time) (db : Db) : PipelineOp v db (run_cleanup_task db now).2

/-- Store states reachable by pipeline operations from the fresh
store. -/
inductive ReachableDb {err : Type} (v : Validator err) : Db → Prop
  | empty : ReachableDb v Db.empty
  | step {db db' : Db} : ReachableDb v db → PipelineOp v db db' → ReachableDb v db'

/-- The store component of `process_coupon` is one of: unchanged, the
fresh insert, the insert plus status update, or the insert plus status
update (with valid outcome) plus mark-posted — and the last three only
arise when the candidate's hash was fresh. -/
theorem process_coupon_state_cases {err : Type} (env : PipelineEnv) (v : Validator err)
    (now : Time) (db : Db) (c : Coupon) :
    (process_coupon env v now db c).1 = db
    ∨ (db.rows.any (fun r => r.hash == c.hash) = false
        ∧ ((process_coupon env v now db c).1 = insertDb db c now
          ∨ (∃ b : Bool, (process_coupon env v now db c).1
              = updateDb (insertDb db c now) db.nextId b now)
          ∨ (process_coupon env v now db c).1
              = postDb (updateDb (insertDb db c now) db.nextId true now) db.nextId)) := by
  cases he : env.existsFail with
  | true =>
    left
    unfold process_coupon
    simp [coupon_exists, he]
  | false =>
    cases hany : db.rows.any (fun r => r.hash == c.hash) with
    | true =>
      left
      unfold process_coupon
      simp [coupon_exists, he, hany]
    | false =>
      cases hi : env.insertFail with
      | true =>
        left
        unfold process_coupon
        simp [coupon_exists, insert_coupon, he, hi, hany]
      | false =>
        cases hval : v.validate_coupon c now with
        | error e =>
          refine .inr ⟨rfl, .inl ?_⟩
          unfold process_coupon
          simp [coupon_exists, insert_coupon, he, hi, hany, hval, insertDb]
        | ok vr =>
          cases hu : env.updateFail with
          | true =>
            refine .inr ⟨rfl, .inl ?_⟩
            unfold process_coupon
            simp [coupon_exists, insert_coupon, update_validation_status,
              he, hi, hu, hany, hval, insertDb]
          | false =>
            cases hb : vr.is_valid with
            | false =>
              refine .inr ⟨rfl, .inr (.inl ⟨false, ?_⟩)⟩
              unfold process_coupon
              simp [coupon_exists, insert_coupon, update_validation_status,
                he, hi, hu, hany, hval, hb, insertDb, updateDb]
            | true =>
              cases hn : env.notifyOk with
              | false =>
                refine .inr ⟨rfl, .inr (.inl ⟨true, ?_⟩)⟩
                unfold process_coupon
                simp [coupon_exists, insert_coupon, update_validation_status,
                  he, hi, hu, hany, hval, hb, hn, insertDb, updateDb]
              | true =>
                cases hp : env.postFail with
                | true =>
                  refine .inr ⟨rfl, .inr (.inl ⟨true, ?_⟩)⟩
                  unfold process_coupon
                  simp [coupon_exists, insert_coupon, update_validation_status,
                    mark_as_posted, he, hi, hu, hp, hany, hval, hb, hn, insertDb, updateDb]
                | false =>
                  refine .inr ⟨rfl, .inr (.inr ?_)⟩
                  unfold process_coupon
                  simp [coupon_exists, insert_coupon, update_validation_status,
                    mark_as_posted, he, hi, hu, hp, hany, hval, hb, hn,
                    insertDb, updateDb, postDb]

/-- Inserting a fresh row preserves well-formedness. -/
theorem insertDb_wf (db : Db) (c : Coupon) (now : Time) (hwf : DbWF db) :
    DbWF (insertDb db c now) := by
  obtain ⟨hlt, hpw⟩ := hwf
  constructor
  · intro r hr
    simp only [insertDb] at hr ⊢
    rcases List.mem_append.mp hr with h | h
    · have := hlt r h
      omega
    · rcases List.mem_singleton.mp h with rfl
      simp only [insertedRow]
      omega
  · rw [insertDb, List.pairwise_append]
    refine ⟨hpw, List.pairwise_singleton _ _, ?_⟩
    intro a ha b hb
    rcases List.mem_singleton.mp hb with rfl
    have := hlt a ha
    simp [insertedRow]
    omega

/-- Inserting a fresh row preserves the invariant: the new row is
unposted. -/
theorem insertDb_inv (db : Db) (c : Coupon) (now : Time) (hinv : DbInv db) :
    DbInv (insertDb db c now) := by
  intro r hr hp
  rcases List.mem_append.mp hr with h | h
  · exact hinv r h hp
  · rcases List.mem_singleton.mp h with rfl
    simp [insertedRow] at hp

/-- The status update preserves rowids, hence well-formedness. -/
theorem updateDb_wf (db : Db) (cid : Int) (b : Bool) (now : Time) (hwf : DbWF db) :
    DbWF (updateDb db cid b now) := by
  obtain ⟨hlt, hpw⟩ := hwf
  constructor
  · intro r hr
    rcases List.mem_map.mp hr with ⟨r0, hr0, rfl⟩
    have := hlt r0 hr0
    by_cases h0 : (r0.id == cid) = true <;> simp [updateDb, h0] <;> omega
  · rw [updateDb, List.pairwise_map]
    refine hpw.imp ?_
    intro a a2 hne
    by_cases ha : (a.id == cid) = true <;> by_cases ha2 : (a2.id == cid) = true <;>
      simp [ha, ha2] <;> exact hne

/-- The mark-posted transform preserves rowids, hence well-formedness. -/
theorem postDb_wf (db : Db) (cid : Int) (hwf : DbWF db) : DbWF (postDb db cid) := by
  obtain ⟨hlt, hpw⟩ := hwf
  constructor
  · intro r hr
    rcases List.mem_map.mp hr with ⟨r0, hr0, rfl⟩
    have := hlt r0 hr0
    by_cases h0 : (r0.id == cid) = true <;> simp [postDb, h0] <;> omega
  · rw [postDb, List.pairwise_map]
    refine hpw.imp ?_
    intro a a2 hne
    by_cases ha : (a.id == cid) = true <;> by_cases ha2 : (a2.id == cid) = true <;>
      simp [ha, ha2] <;> exact hne

/-- The status update preserves the invariant as long as no row at the
targeted id is posted. -/
theorem updateDb_inv (db : Db) (cid : Int) (b : Bool) (now : Time) (hinv : DbInv db)
    (htarget : ∀ r ∈ db.rows, r.id = cid → r.is_posted = false) :
    DbInv (updateDb db cid b now) := by
  intro r hr hp
  rcases List.mem_map.mp hr with ⟨r0, hr0, rfl⟩
  by_cases h0 : (r0.id == cid) = true
  · have : r0.is_posted = false := htarget r0 hr0 (by simpa using h0)
    simp [h0] at hp
    rw [this] at hp
    cases hp
  · simp [h0] at hp ⊢
    exact hinv r0 hr0 hp

/-- Marking posted preserves the invariant as long as every row at the
targeted id is valid and carries a validation timestamp. -/
theorem postDb_inv (db : Db) (cid : Int) (hinv : DbInv db)
    (htarget : ∀ r ∈ db.rows, r.id = cid →
      r.is_valid = true ∧ r.validated_at ≠ none) :
    DbInv (postDb db cid) := by
  intro r hr hp
  rcases List.mem_map.mp hr with ⟨r0, hr0, rfl⟩
  by_cases h0 : (r0.id == cid) = true
  · have := htarget r0 hr0 (by simpa using h0)
    simp [h0]
    exact this
  · simp [h0] at hp ⊢
    exact hinv r0 hr0 hp

/-- The cleanup sweep (a filter) preserves well-formedness. -/
theorem cleanup_wf (db : Db) (now : Time) (hwf : DbWF db) :
    DbWF (run_cleanup_task db now).2 := by
  obtain ⟨hlt, hpw⟩ := hwf
  constructor
  · intro r hr
    rw [run_cleanup_task, delete_expired_coupons] at hr
    exact hlt r (List.mem_of_mem_filter hr)
  · rw [run_cleanup_task, delete_expired_coupons]
    exact hpw.sublist (List.filter_sublist _)

/-- The cleanup sweep preserves the invariant. -/
theorem cleanup_inv (db : Db) (now : Time) (hinv : DbInv db) :
    DbInv (run_cleanup_task db now).2 := by
  intro r hr hp
  rw [run_cleanup_task, delete_expired_coupons] at hr
  exact hinv r (List.mem_of_mem_filter hr) hp

/-- In a well-formed store, the only row of a fresh insert carrying the
new rowid is the inserted row itself, which is unposted. -/
theorem insertDb_target_unposted (db : Db) (c : Coupon) (now : Time) (hwf : DbWF db) :
    ∀ r ∈ (insertDb db c now).rows, r.id = db.nextId → r.is_posted = false := by
  intro r hr hid
  rcases List.mem_append.mp hr with h | h
  · have := hwf.1 r h
    omega
  · rcases List.mem_singleton.mp h with rfl
    rfl

/-- After inserting a fresh candidate and updating its status to valid,
every row at the new rowid is valid with a validation timestamp. -/
theorem update_insert_target_valid (db : Db) (c : Coupon) (now : Time) :
    ∀ r ∈ (updateDb (insertDb db c now) db.nextId true now).rows, r.id = db.nextId →
      r.is_valid = true ∧ r.validated_at ≠ none := by
  intro r hr hid
  rcases List.mem_map.mp hr with ⟨r0, hr0, rfl⟩
  by_cases h0 : (r0.id == db.nextId) = true
  · simp [h0]
  · simp [h0] at hid ⊢
    exact absurd hid (by simpa using h0)

/-- Any pipeline operation preserves well-formedness and the posted
invariant. -/
theorem pipelineOp_preserves {err : Type} {v : Validator err} {db db' : Db}
    (hwf : DbWF db) (hinv : DbInv db) (hop : PipelineOp v db db') :
    DbWF db' ∧ DbInv db' := by
  cases hop with
  | cleanup now db => exact ⟨cleanup_wf db now hwf, cleanup_inv db now hinv⟩
  | scrape env now c db =>
    rcases process_coupon_state_cases env v now db c with h | ⟨_, h | ⟨b, h⟩ | h⟩
    · rw [h]; exact ⟨hwf, hinv⟩
    · rw [h]
      exact ⟨insertDb_wf db c now hwf, insertDb_inv db c now hinv⟩
    · rw [h]
      have hwf1 := insertDb_wf db c now hwf
      exact ⟨updateDb_wf _ _ b now hwf1,
        updateDb_inv _ _ b now (insertDb_inv db c now hinv)
          (insertDb_target_unposted db c now hwf)⟩
    · rw [h]
      have hwf1 := insertDb_wf db c now hwf
      have hwf2 := updateDb_wf _ db.nextId true now hwf1
      refine ⟨postDb_wf _ _ hwf2, postDb_inv _ _ ?_ (update_insert_target_valid db c now)⟩
      exact updateDb_inv _ _ true now (insertDb_inv db c now hinv)
        (insertDb_target_unposted db c now hwf)

/-- Every reachable store is well-formed and satisfies the posted
invariant. -/
theorem reachable_wf_inv {err : Type} {v : Validator err} {db : Db}
    (h : ReachableDb v db) : DbWF db ∧ DbInv db := by
  induction h with
  | empty =>
    refine ⟨⟨?_, ?_⟩, ?_⟩
    · intro r hr; cases hr
    · exact List.Pairwise.nil
    · intro r hr; cases hr
  | step _ hop ih => exact pipelineOp_preserves ih.1 ih.2 hop

/-- `find?` over a rowid-preserving map is the map of `find?`. -/
theorem findRow_map (f : DbCoupon → DbCoupon) (hf : ∀ r, (f r).id = r.id)
    (l : List DbCoupon) (i : Int) :
    (l.map f).find? (fun r => r.id == i) = ((l.find? fun r => r.id == i).map f) := by
  induction l with
  | nil => rfl
  | cons x t ih =>
    by_cases hx : (x.id == i) = true
    · have h1 : List.find? (fun r => r.id == i) (x :: t) = some x :=
        List.find?_cons_of_pos t hx
      have h2 : List.find? (fun r => r.id == i) (f x :: t.map f) = some (f x) :=
        List.find?_cons_of_pos _ (by rw [hf x]; exact hx)
      rw [List.map_cons, h2, h1]
      rfl
    · have h1 : List.find? (fun r => r.id == i) (x :: t)
          = List.find? (fun r => r.id == i) t :=
        List.find?_cons_of_neg t hx
      have h2 : List.find? (fun r => r.id == i) (f x :: t.map f)
          = List.find? (fun r => r.id == i) (t.map f) :=
        List.find?_cons_of_neg _ (by rw [hf x]; exact hx)
      rw [List.map_cons, h2, h1, ih]

/-- Two rows of a duplicate-free store with the same rowid are equal. -/
theorem mem_unique_id {l : List DbCoupon}
    (hpw : l.Pairwise (fun a b => a.id ≠ b.id)) {r r' : DbCoupon}
    (hr : r ∈ l) (hr' : r' ∈ l) (hid : r.id = r'.id) : r = r' := by
  induction l with
  | nil => cases hr
  | cons x t ih =>
    rcases List.pairwise_cons.mp hpw with ⟨hx, ht⟩
    rcases List.mem_cons.mp hr with rfl | hr0
    · rcases List.mem_cons.mp hr' with rfl | hr'0
      · rfl
      · exact absurd hid (hx r' hr'0)
    · rcases List.mem_cons.mp hr' with rfl | hr'0
      · exact absurd hid.symm (hx r hr0)
      · exact ih ht hr0 hr'0

/-- The status-update row transform preserves rowids. -/
theorem update_row_id (cid : Int) (b : Bool) (now : Time) (r : DbCoupon) :
    (if r.id == cid then { r with is_valid := b, validated_at := some now } else r).id
      = r.id := by
  by_cases hr : r.id == cid <;> simp [hr]

/-- The mark-posted row transform preserves rowids. -/
theorem post_row_id (cid : Int) (r : DbCoupon) :
    (if r.id == cid then { r with is_posted := true } else r).id = r.id := by
  by_cases hr : r.id == cid <;> simp [hr]

/-- The mark-posted row transform keeps a posted row posted. -/
theorem post_row_posted_of (cid : Int) (r : DbCoupon) (h : r.is_posted = true) :
    (if r.id == cid then { r with is_posted := true } else r).is_posted = true := by
  by_cases hr : r.id == cid <;> simp [hr, h]

/-- Across any single pipeline operation on a well-formed store, a row
that was posted keeps its posted flag in the successor state. -/
theorem pipelineOp_posted_monotone {err : Type} {v : Validator err} {db db' : Db}
    (hwf : DbWF db) (hop : PipelineOp v db db') (i : Int) (r r' : DbCoupon)
    (hr : findRow db i = some r) (hp : r.is_posted = true)
    (hr' : findRow db' i = some r') : r'.is_posted = true := by
  cases hop with
  | cleanup now db =>
    have hrmem : r ∈ db.rows := by
      unfold findRow at hr
      exact List.mem_of_find?_eq_some hr
    have hrid : (r.id == i) = true := by
      unfold findRow at hr
      have := List.find?_some hr
      simpa using this
    have hr'mem : r' ∈ (run_cleanup_task db now).2.rows := by
      unfold findRow at hr'
      exact List.mem_of_find?_eq_some hr'
    have hr'id : (r'.id == i) = true := by
      unfold findRow at hr'
      have := List.find?_some hr'
      simpa using this
    have hr'mem0 : r' ∈ db.rows := by
      rw [run_cleanup_task, delete_expired_coupons] at hr'mem
      exact List.mem_of_mem_filter hr'mem
    have heq : r = r' := mem_unique_id hwf.2 hrmem hr'mem0 (by
      have h1 : r.id = i := by simpa using hrid
      have h2 : r'.id = i := by simpa using hr'id
      rw [h1, h2])
    rw [← heq]
    exact hp
  | scrape env now c db =>
    have hins : findRow (insertDb db c now) i = some r := by
      unfold findRow at hr ⊢
      show ((db.rows ++ [insertedRow db c now]).find? fun r => r.id == i) = some r
      rw [List.find?_append, hr, Option.or_some]
    rcases process_coupon_state_cases env v now db c with h | ⟨_, h | ⟨b, h⟩ | h⟩
    · rw [h, hr] at hr'
      cases hr'
      exact hp
    · rw [h, hins] at hr'
      cases hr'
      exact hp
    · rw [h] at hr'
      unfold findRow at hr' hins
      rw [updateDb] at hr'
      rw [show ((insertDb db c now).rows.map fun r =>
            if r.id == db.nextId
            then { r with is_valid := b, validated_at := some now } else r).find?
              (fun r => r.id == i)
          = (((insertDb db c now).rows.find? fun r => r.id == i).map fun r =>
            if r.id == db.nextId
            then { r with is_valid := b, validated_at := some now } else r)
        from findRow_map _ (update_row_id db.nextId b now) _ i, hins] at hr'
      cases hr'
      rw [update_row_posted db.nextId b now r]
      exact hp
    · rw [h] at hr'
      unfold findRow at hr' hins
      rw [postDb, updateDb] at hr'
      rw [show (((insertDb db c now).rows.map fun r =>
            if r.id == db.nextId
            then { r with is_valid := true, validated_at := some now } else r).map fun r =>
            if r.id == db.nextId then { r with is_posted := true } else r).find?
              (fun r => r.id == i)
          = ((((insertDb db c now).rows.map fun r =>
            if r.id == db.nextId
            then { r with is_valid := true, validated_at := some now } else r).find?
              (fun r => r.id == i)).map fun r =>
            if r.id == db.nextId then { r with is_posted := true } else r)
        from findRow_map _ (post_row_id db.nextId) _ i] at hr'
      rw [show ((insertDb db c now).rows.map fun r =>
            if r.id == db.nextId
            then { r with is_valid := true, validated_at := some now } else r).find?
              (fun r => r.id == i)
          = (((insertDb db c now).rows.find? fun r => r.id == i).map fun r =>
            if r.id == db.nextId
            then { r with is_valid := true, validated_at := some now } else r)
        from findRow_map _ (update_row_id db.nextId true now) _ i, hins] at hr'
      cases hr'
      apply post_row_posted_of
      rw [update_row_posted db.nextId true now r]
      exact hp

/-- C8: in every store state reachable by pipeline operations, a posted
row is valid and carries a validation timestamp; and across any further
pipeline operation, a row observed posted is still posted wherever it
is still observable — status updates may overwrite `is_valid` and
`validated_at` but no operation ever resets the posted flag. -/
theorem posted_implies_valid_and_monotone {err : Type} (v : Validator err) (db db' : Db)
    (hreach : ReachableDb v db) (hop : PipelineOp v db db') :
    (∀ r ∈ db.rows, r.is_posted = true → r.is_valid = true ∧ r.validated_at ≠ none)
    ∧ ∀ i r r', findRow db i = some r → r.is_posted = true →
        findRow db' i = some r' → r'.is_posted = true := by
  rcases reachable_wf_inv hreach with ⟨hwf, hinv⟩
  exact ⟨hinv, fun i r r' h1 h2 h3 => pipelineOp_posted_monotone hwf hop i r r' h1 h2 h3⟩

/-- The store after one full successful processing of the Generic demo
coupon from the fresh store: one valid, validated, posted row. -/
def demoDb : Db := (process_coupon PipelineEnv.allOk vRegOnline 10 Db.empty couponGeneric).1

/-- The row `demoDb` holds. -/
def demoRow : DbCoupon :=
  { id := 1, name := "X Pro", description := "An offer", discount_percentage := none,
    code := "ABC123", url := "http://x.test/offer", source := "Generic",
    expiry := some 99, created_at := 3, validated_at := some 10,
    is_valid := true, is_posted := true, hash := couponGeneric.hash }

/-- Witness for C8: the posted demo row survives a cleanup sweep with
its posted flag intact. -/
theorem posted_implies_valid_and_monotone_witness : demoRow.is_posted = true :=
  (posted_implies_valid_and_monotone vRegOnline demoDb (run_cleanup_task demoDb 0).2
      (ReachableDb.step ReachableDb.empty
        (PipelineOp.scrape PipelineEnv.allOk 10 couponGeneric Db.empty))
      (PipelineOp.cleanup 0 demoDb)).2 1 demoRow demoRow rfl rfl rfl
